import Mathlib

/-!
Shallow embedding of the `ctx` value-chain (`src/with_value.rs`).

The Rust code stores one value of an arbitrary `Any + Clone + Sync` type in
each chain node and resolves lookups by exact runtime-type comparison
(`downcast_ref`), delegating to the parent (behind `Arc<Mutex<_>>`) on a
mismatch.  We model runtime types by a small closed universe `TypeId` with a
carrier assignment, dynamic values as dependent pairs, and contexts as an
inductive whose `leaf` constructor abstracts over an arbitrary external
`Context` implementation (the `background()` root is one instance).  The
mutex around the parent is modelled by a poisoned flag on each value node;
`Ctx.valueRun` threads the possibility of a failed `lock().unwrap()`, while
`Ctx.value` is the pure result.  `Ctx.valueMut` passes the chain state
explicitly to express that lookup never mutates any node.
-/

/-- Opaque representation of the floating-point payload type.  The chain
never computes with the float; it only stores it, compares its runtime type
tag, and copies it, so an opaque carrier is faithful. -/
structure FloatVal where
  bits : Nat
deriving DecidableEq, Repr

/-- Runtime type identities occurring in the claims: the integer type, the
float type, the string type, and the two wrapper structs `A(i32)` / `B(i32)`
from the tests (distinct types with identical payload type). -/
inductive TypeId where
  | tInt
  | tFloat
  | tString
  | tA
  | tB
deriving DecidableEq, Repr

/-- The Lean type carrying the payload of each runtime type. -/
abbrev TypeId.carrier : TypeId → Type
  | .tInt => Int
  | .tFloat => FloatVal
  | .tString => String
  | .tA => Int
  | .tB => Int

/-- A type-erased value: the runtime type tag together with a payload of the
corresponding carrier (the model of `&Any`). -/
structure AnyVal where
  tag : TypeId
  val : tag.carrier

/-- `Clone::clone` on a payload.  All payload types in the universe are plain
data, whose derived clone is a field-by-field copy. -/
def cloneCarrier : (T : TypeId) → T.carrier → T.carrier
  | .tInt, x => x
  | .tFloat, x => ⟨x.bits⟩
  | .tString, x => x
  | .tA, x => x
  | .tB, x => x

/-- `Any::downcast_ref::<T>` on a stored value: succeeds exactly when the
stored runtime type equals the requested one. -/
def downcastRef (a : AnyVal) (T : TypeId) : Option T.carrier :=
  if h : a.tag = T then some (h ▸ a.val) else none

/-- The error type of the surrounding crate (`ContextError`).  Modelled from
the spec: the type is declared outside `src/` for the out-of-scope
future/cancellation integration and "is never produced by the value chain
itself"; its inhabitants are irrelevant here. -/
inductive ContextError where
  | canceled
deriving DecidableEq, Repr

/-- `futures::Async`: a poll either yields a ready item or reports
not-ready. -/
inductive Async (α : Type) where
  | ready (a : α)
  | notReady
deriving DecidableEq, Repr

/-- A context chain.  `leaf` abstracts an arbitrary external `Context`
implementation by its two capability methods (typed lookup and deadline);
`withValueNode` is a `WithValue` node: the mutex-poisoned flag of the
`Arc<Mutex<C>>` around the parent, the parent itself, and the stored value. -/
inductive Ctx where
  | leaf (lookup : (T : TypeId) → Option T.carrier) (dl : Option Nat)
  | withValueNode (poisoned : Bool) (parent : Ctx) (val : AnyVal)

/-- `background()`: the root context — no value for any type, no deadline.
Modelled from the spec: the root constructor lives outside `src/`; the spec
requires "a context with no parent, no value, and no deadline". -/
def background : Ctx := .leaf (fun _ => none) none

/-- `with_value(parent, val)`: wraps the parent in a fresh (unpoisoned)
mutex and stores the value alongside it. -/
def with_value (parent : Ctx) (v : AnyVal) : Ctx :=
  .withValueNode false parent v

/-- `Context::value::<T>` as a pure total function: return a clone of the
stored value when its runtime type is exactly `T`, otherwise delegate the
lookup to the parent; a leaf answers with its own lookup method. -/
def Ctx.value : Ctx → (T : TypeId) → Option T.carrier
  | .leaf lookup _, T => lookup T
  | .withValueNode _ parent v, T =>
    match downcastRef v T with
    | some x => some (cloneCarrier T x)
    | none => parent.value T

/-- `Context::value::<T>` with the parent-mutex acquisition made explicit:
`none` models a panic of `self.parent.lock().unwrap()` (a poisoned mutex),
`some r` a normal return with result `r`.  The lock is only taken on the
delegation path. -/
def Ctx.valueRun : Ctx → (T : TypeId) → Option (Option T.carrier)
  | .leaf lookup _, T => some (lookup T)
  | .withValueNode poisoned parent v, T =>
    match downcastRef v T with
    | some x => some (some (cloneCarrier T x))
    | none => if poisoned then none else parent.valueRun T

/-- `Context::value::<T>` in state-passing form: each node is returned along
with the result, exposing any mutation the traversal could make (`&self` in
Rust; here every node is rebuilt from what the traversal leaves behind). -/
def Ctx.valueMut : Ctx → (T : TypeId) → Option T.carrier × Ctx
  | .leaf lookup dl, T => (lookup T, .leaf lookup dl)
  | .withValueNode poisoned parent v, T =>
    match downcastRef v T with
    | some x => (some (cloneCarrier T x), .withValueNode poisoned parent v)
    | none =>
      let r := parent.valueMut T
      (r.1, .withValueNode poisoned r.2 v)

/-- `Context::deadline`: a `WithValue` node answers `None` unconditionally;
a leaf answers with its own deadline method. -/
def Ctx.deadline : Ctx → Option Nat
  | .leaf _ dl => dl
  | .withValueNode _ _ _ => none

/-- `Clone::clone` for `AnyVal` (the stored value). -/
def AnyVal.clone (a : AnyVal) : AnyVal :=
  ⟨a.tag, cloneCarrier a.tag a.val⟩

/-- `#[derive(Clone)]` for `WithValue`: `Arc::clone` yields a handle to the
very same mutex-wrapped parent (sharing collapses to equality of the parent
and of the poisoned flag in the pure model), and the value is cloned.  A
leaf clones to itself. -/
def Ctx.clone : Ctx → Ctx
  | .leaf lookup dl => .leaf lookup dl
  | .withValueNode poisoned parent v => .withValueNode poisoned parent v.clone

/-- `Future::poll` for `WithValue`: takes the node by `&mut self` (modelled
as state passing) and returns `Ok(Async::NotReady)` without touching the
state. -/
def Ctx.poll (c : Ctx) : Except ContextError (Async Unit) × Ctx :=
  (Except.ok Async.notReady, c)

/-- The stored value of a node, if it is a `WithValue` node. -/
def Ctx.storedVal : Ctx → Option AnyVal
  | .leaf _ _ => none
  | .withValueNode _ _ v => some v

/-- The parent of a node, if it is a `WithValue` node. -/
def Ctx.parentOf : Ctx → Option Ctx
  | .leaf _ _ => none
  | .withValueNode _ parent _ => some parent

/-- The chains the library can actually build: any external context as the
base, extended by `with_value` (which always installs a fresh, unpoisoned
mutex). -/
inductive Built : Ctx → Prop
  | leaf (lookup : (T : TypeId) → Option T.carrier) (dl : Option Nat) :
      Built (.leaf lookup dl)
  | attach {parent : Ctx} (v : AnyVal) : Built parent →
      Built (with_value parent v)

/-- Cloning a payload is the identity: every carrier is plain data. -/
theorem cloneCarrier_eq (T : TypeId) (x : T.carrier) : cloneCarrier T x = x := by
  cases T <;> rfl

/-- Downcasting a value stored under tag `T` to `T` succeeds with the
payload itself. -/
theorem downcastRef_self (T : TypeId) (x : T.carrier) :
    downcastRef ⟨T, x⟩ T = some x := by
  simp [downcastRef]

/-- Downcasting to a different tag fails. -/
theorem downcastRef_ne (a : AnyVal) (T : TypeId) (h : a.tag ≠ T) :
    downcastRef a T = none := by
  simp [downcastRef, h]

/-- Convenience injections into `AnyVal` for the concrete runtime types. -/
def vInt (n : Int) : AnyVal := ⟨.tInt, n⟩

/-- A float-typed value. -/
def vFloat (b : Nat) : AnyVal := ⟨.tFloat, ⟨b⟩⟩

/-- A value of wrapper type `A(i32)`. -/
def vA (n : Int) : AnyVal := ⟨.tA, n⟩

/-- A value of wrapper type `B(i32)`. -/
def vB (n : Int) : AnyVal := ⟨.tB, n⟩

/-- C1: Shadowing by recency — attaching `x1` of type `T` and then `x2` of
the same type `T` makes the lookup for `T` on the final node return `x2`;
when the two values differ it in particular never returns `x1` (nearest
match walking leaf-to-root wins). -/
theorem shadowing_by_recency :
    (∀ (parent : Ctx) (T : TypeId) (x1 x2 : T.carrier),
      Ctx.value (with_value (with_value parent ⟨T, x1⟩) ⟨T, x2⟩) T = some x2)
    ∧ (∀ (parent : Ctx) (T : TypeId) (x1 x2 : T.carrier), x1 ≠ x2 →
      Ctx.value (with_value (with_value parent ⟨T, x1⟩) ⟨T, x2⟩) T ≠ some x1) := by
  constructor
  · intro parent T x1 x2
    simp [with_value, Ctx.value, downcastRef_self, cloneCarrier_eq]
  · intro parent T x1 x2 hne
    simp [with_value, Ctx.value, downcastRef_self, cloneCarrier_eq]
    exact fun h => hne h.symm

theorem shadowing_by_recency_witness :
    Ctx.value (with_value (with_value background (vInt 1)) (vInt 2)) .tInt = some 2
    ∧ Ctx.value (with_value (with_value background (vInt 1)) (vInt 2)) .tInt ≠ some 1 :=
  ⟨shadowing_by_recency.1 background .tInt 1 2,
   shadowing_by_recency.2 background .tInt 1 2 (by decide)⟩

/-- C2: Exact-type resolution — a node answers with (a copy of) its stored
value exactly when the stored runtime type equals the requested type, and
otherwise returns exactly the parent's answer; wrapper types `A` and `B`
with identical payloads are never confused. -/
theorem exact_type_resolution :
    (∀ (p : Bool) (parent : Ctx) (T : TypeId) (x : T.carrier),
      Ctx.value (.withValueNode p parent ⟨T, x⟩) T = some x)
    ∧ (∀ (p : Bool) (parent : Ctx) (v : AnyVal) (T : TypeId), v.tag ≠ T →
      Ctx.value (.withValueNode p parent v) T = Ctx.value parent T)
    ∧ Ctx.value (with_value (with_value background (vA 1)) (vB 1)) .tA = some 1
    ∧ Ctx.value (with_value (with_value background (vA 7)) (vB 9)) .tA = some 7
    ∧ Ctx.value (with_value (with_value background (vA 7)) (vB 9)) .tB = some 9 := by
  refine ⟨?_, ?_, rfl, rfl, rfl⟩
  · intro p parent T x
    simp [Ctx.value, downcastRef_self, cloneCarrier_eq]
  · intro p parent v T hne
    simp [Ctx.value, downcastRef_ne v T hne]

theorem exact_type_resolution_witness :
    Ctx.value (.withValueNode false background (vInt 5)) .tFloat
      = Ctx.value background .tFloat :=
  exact_type_resolution.2.1 false background (vInt 5) .tFloat (by decide)

/-- C3: Concrete two-layer scenario — with `a = with_value(background, 42)`
(an int) and `b = with_value(a, 1.0)` (a float), the int lookup on `b`
yields `Some 42`, the float lookup yields `Some 1.0`, the string lookup
yields `None`; and both values are preserved under the reversed attach
order as well. -/
theorem concrete_two_layer :
    Ctx.value (with_value (with_value background (vInt 42)) (vFloat 1)) .tInt = some 42
    ∧ Ctx.value (with_value (with_value background (vInt 42)) (vFloat 1)) .tFloat
        = some (FloatVal.mk 1)
    ∧ Ctx.value (with_value (with_value background (vInt 42)) (vFloat 1)) .tString = none
    ∧ Ctx.value (with_value (with_value background (vFloat 1)) (vInt 42)) .tInt = some 42
    ∧ Ctx.value (with_value (with_value background (vFloat 1)) (vInt 42)) .tFloat
        = some (FloatVal.mk 1) :=
  ⟨rfl, rfl, rfl, rfl, rfl⟩

/-- C4: Lookup never fails — on every chain the library can build, the
lookup with the parent-mutex acquisition made explicit terminates normally
(never hits a poisoned `lock().unwrap()`) and agrees with the pure result:
presence or absence, never a panic. -/
theorem lookup_total_lock_succeeds (c : Ctx) (h : Built c) (T : TypeId) :
    Ctx.valueRun c T = some (Ctx.value c T) := by
  induction h with
  | leaf lookup dl => rfl
  | attach v hb ih =>
      cases hdc : downcastRef v T <;>
        simp [with_value, Ctx.valueRun, Ctx.value, hdc, ih]

theorem lookup_total_lock_succeeds_witness :
    Ctx.valueRun (with_value background (vInt 1)) .tFloat
      = some (Ctx.value (with_value background (vInt 1)) .tFloat) :=
  lookup_total_lock_succeeds (with_value background (vInt 1))
    (Built.attach (vInt 1) (Built.leaf (fun _ => none) none)) .tFloat

/-- C5: Duplication preserves resolution — the derived clone of a
value-bearing node yields the same lookup result for every requested type,
and it shares the same parent chain (no deep copy: the parent of the clone
is the very same context) and carries the same stored value. -/
theorem clone_preserves_resolution :
    (∀ (p : Bool) (parent : Ctx) (v : AnyVal) (T : TypeId),
      Ctx.value (Ctx.clone (.withValueNode p parent v)) T
        = Ctx.value (.withValueNode p parent v) T)
    ∧ (∀ (p : Bool) (parent : Ctx) (v : AnyVal),
      Ctx.parentOf (Ctx.clone (.withValueNode p parent v)) = some parent
      ∧ Ctx.storedVal (Ctx.clone (.withValueNode p parent v)) = some v) := by
  have hclone : ∀ (a : AnyVal), a.clone = a := by
    intro a
    cases a with
    | mk t x => simp [AnyVal.clone, cloneCarrier_eq]
  constructor
  · intro p parent v T
    simp [Ctx.clone, hclone]
  · intro p parent v
    exact ⟨rfl, by simp [Ctx.clone, Ctx.storedVal, hclone]⟩

/-- C6: Deadline is always absent on a value node — `deadline()` on a
value-bearing node returns `none` unconditionally, for every parent,
including a parent context that itself carries a deadline. -/
theorem deadline_always_none (p : Bool) (parent : Ctx) (v : AnyVal)
    (lookup : (T : TypeId) → Option T.carrier) (d : Nat) :
    Ctx.deadline (.withValueNode p parent v) = none
    ∧ Ctx.deadline (.withValueNode p (.leaf lookup (some d)) v) = none :=
  ⟨rfl, rfl⟩

/-- C7: Attach is infallible — `with_value` is a total function: for every
parent context and every value it produces a node that stores exactly that
value and references exactly that parent, with no precondition on the
value's type relative to the ancestors. -/
theorem attach_infallible (parent : Ctx) (v : AnyVal) :
    Ctx.storedVal (with_value parent v) = some v
    ∧ Ctx.parentOf (with_value parent v) = some parent :=
  ⟨rfl, rfl⟩

/-- C8: The vestigial future integration never completes — `poll` on a
value-bearing context returns `Ok(Async::NotReady)` in every state, leaving
the state untouched: it never yields a completed value and never an
error. -/
theorem poll_never_ready (c : Ctx) :
    Ctx.poll c = (Except.ok Async.notReady, c) :=
  rfl

/-- C9: Lookup is read-only and returns an independent copy — the
state-passing form of the lookup returns every node of the chain unchanged
together with the pure result, and a match returns the clone of the stored
payload (a copy, not the stored payload's storage). -/
theorem lookup_readonly_returns_copy :
    (∀ (c : Ctx) (T : TypeId), Ctx.valueMut c T = (Ctx.value c T, c))
    ∧ (∀ (p : Bool) (parent : Ctx) (T : TypeId) (x : T.carrier),
      Ctx.value (.withValueNode p parent ⟨T, x⟩) T = some (cloneCarrier T x)) := by
  constructor
  · intro c T
    induction c with
    | leaf lookup dl => rfl
    | withValueNode p parent v ih =>
        cases hdc : downcastRef v T <;> simp [Ctx.valueMut, Ctx.value, hdc, ih]
  · intro p parent T x
    simp [Ctx.value, downcastRef_self]

/-- C10: Leaf-match short-circuit — when a node's own stored value has
exactly the requested type, the lookup returns a copy of it without ever
acquiring the parent lock (it succeeds even with a poisoned parent mutex)
and independently of which parent the node has. -/
theorem leaf_match_short_circuit (p : Bool) (parent parent2 : Ctx)
    (T : TypeId) (x : T.carrier) :
    Ctx.valueRun (.withValueNode p parent ⟨T, x⟩) T = some (some x)
    ∧ Ctx.value (.withValueNode p parent ⟨T, x⟩) T
        = Ctx.value (.withValueNode p parent2 ⟨T, x⟩) T := by
  constructor
  · simp [Ctx.valueRun, downcastRef_self, cloneCarrier_eq]
  · simp [Ctx.value, downcastRef_self]
